import Mathlib

/-!
Verification of the correlation + normalization engine of the
data-mechanic-cluster-visualizer browser extension.

The source is JavaScript; we use a shallow embedding:
* `Json` models JavaScript values as they occur in this program
  (numbers are modelled as a decimal integer part plus fraction digits,
  which covers every numeral the program manipulates; the program never
  performs arithmetic on them beyond `length > 0` comparisons).
* Property access `a.f` throws a `TypeError` on `null`/`undefined` in JS;
  it is modelled by `Json.getF` in the `Except Unit` monad.  `try`/`catch`
  blocks of the source become explicit handlers of that monad.
* Truthiness of JS conditions is modelled by `Json.truthy`.
-/

/-- Model of the JavaScript values flowing through the extension.
`num i f` stands for the decimal numeral with integer part `i` and
fraction digits `f` (`f = ""` for integers). -/
inductive Json : Type where
  | null : Json
  | undef : Json
  | bool : Bool → Json
  | num : Int → String → Json
  | str : String → Json
  | arr : List Json → Json
  | obj : List (String × Json) → Json

namespace Json

/-- JS truthiness: `false`, `null`, `undefined`, `0`, `""` are falsy;
objects and arrays are always truthy. -/
def truthy : Json → Bool
  | .null => false
  | .undef => false
  | .bool b => b
  | .num i f => !(i = 0 && f.toList.all (fun c => c = '0'))
  | .str s => !(s = "")
  | .arr _ => true
  | .obj _ => true

/-- Association-list lookup used for object properties. -/
def lookupField : List (String × Json) → String → Json
  | [], _ => .undef
  | (k, v) :: t, key => if k = key then v else lookupField t key

/-- JS property read `a.f`: throws (`.error ()`) on `null`/`undefined`;
yields `undefined` for a missing property; `length` is special-cased for
arrays and strings as in JS. -/
def getF : Json → String → Except Unit Json
  | .null, _ => .error ()
  | .undef, _ => .error ()
  | .arr xs, key => .ok (if key = "length" then .num xs.length "" else .undef)
  | .str s, key => .ok (if key = "length" then .num s.length "" else .undef)
  | .obj fs, key => .ok (lookupField fs key)
  | _, _ => .ok (.undef)

/-- JS index read `a[i]` for a natural index: throws on `null`/`undefined`,
indexes arrays and strings, falls back to the decimal property name on
objects, `undefined` elsewhere. -/
def idxF : Json → Nat → Except Unit Json
  | .null, _ => .error ()
  | .undef, _ => .error ()
  | .arr xs, i => .ok (xs.getD i .undef)
  | .str s, i => .ok (if h : i < s.toList.length then .str (String.mk [s.toList.get ⟨i, h⟩]) else .undef)
  | .obj fs, i => .ok (lookupField fs (toString i))
  | _, _ => .ok (.undef)

/-- Functional update of an object's field list, keeping the field's
original position as JS property writes do. -/
def setAssoc : List (String × Json) → String → Json → List (String × Json)
  | [], k, v => [(k, v)]
  | (k1, v1) :: t, k, v => if k1 = k then (k, v) :: t else (k1, v1) :: setAssoc t k v

/-- JS property write `a.f = v`: throws on `null`/`undefined`, updates
objects, is silently ignored on other primitives (sloppy mode). -/
def setF : Json → String → Json → Except Unit Json
  | .null, _, _ => .error ()
  | .undef, _, _ => .error ()
  | .obj fs, k, v => .ok (.obj (setAssoc fs k v))
  | j, _, _ => .ok j

/-- The JS test `typeof x === 'object' && x !== null` (arrays included). -/
def isObjectLike : Json → Bool
  | .obj _ => true
  | .arr _ => true
  | _ => false

def isArr : Json → Bool
  | .arr _ => true
  | _ => false

/-- JS strict equality `===` on the values the program compares; two
distinct objects or arrays compare by reference in JS, and the program
only ever compares values coming from different allocations, so
object/array comparisons are modelled as `false`. -/
def jsStrictEq : Json → Json → Bool
  | .null, .null => true
  | .undef, .undef => true
  | .bool a, .bool b => a = b
  | .num a fa, .num b fb => a = b && fa = fb
  | .str a, .str b => a = b
  | _, _ => false

/-- Numeric coercion used by the source's `x > 0` comparisons
(`ToNumber` on the values the program actually compares there:
numbers, numeric strings, bools; everything else compares false). -/
def gtZero : Json → Bool
  | .num i f => (0 < i) || (i = 0 && f.toList.any (fun c => c ≠ '0'))
  | .str s => (s.toInt?).elim false (fun n => 0 < n)
  | .bool b => b
  | _ => false

end Json

/-- JS `ToString` of a non-array value (the program only ever
interpolates strings and numbers into its template strings). -/
def jsToStringPrim : Json → String
  | .null => "null"
  | .undef => "undefined"
  | .bool b => if b then "true" else "false"
  | .num i f => toString i ++ (if f = "" then "" else "." ++ f)
  | .str s => s
  | .obj _ => "[object Object]"
  | .arr _ => ""

/-- JS `ToString`; array elements are comma-joined one level deep
(`null`/`undefined` elements render empty, as in JS). -/
def jsToString : Json → String
  | .arr xs =>
      String.intercalate ","
        (xs.map fun x =>
          match x with
          | .null => ""
          | .undef => ""
          | y => jsToStringPrim y)
  | j => jsToStringPrim j

/-- Model of `Array.prototype.map` with a callback that can throw. -/
def mapE (f : Json → Except Unit α) : List Json → Except Unit (List α)
  | [] => .ok []
  | x :: xs => do
    let y ← f x
    let ys ← mapE f xs
    pure (y :: ys)

example : Json.truthy (.num 0 "") = false := by decide
example : Json.truthy (.num 0 "9") = true := by decide
example : Json.gtZero (.num 0 "9") = true := by decide
example : jsToString (.num 0 "9") = "0.9" := by rfl
example : Json.getF (.obj [("a", .num 1 "")]) "a" = .ok (.num 1 "") := by rfl
example : Json.getF .null "a" = .error () := by rfl

/-! ### A model of `JSON.parse`

The source calls the platform's `JSON.parse`.  We model it with a total
recursive-descent parser driven by fuel (structural recursion, so concrete
parses reduce definitionally).  The model covers the JSON forms the
program's traffic uses: objects, arrays, strings (with single-character
escapes), decimal numerals without exponents, `true`, `false`, `null`.
Inputs outside this subset fail, which the callers treat like any other
parse failure. -/

def pSkip (cs : List Char) : List Char :=
  cs.dropWhile (fun c => c = ' ' || c = '\n' || c = '\t' || c = '\r')

/-- Decode one escaped character of a JSON string literal. -/
def pEsc (c : Char) : Char :=
  if c = 'n' then '\n'
  else if c = 't' then '\t'
  else if c = 'r' then '\r'
  else c

/-- Parse the remainder of a JSON string literal (after the opening
quote); returns the decoded text and the input after the closing quote. -/
def pStr : List Char → Option (String × List Char)
  | [] => none
  | c :: rest =>
    if c = '\"' then some ("", rest)
    else if c = '\\' then
      match rest with
      | [] => none
      | e :: rest2 =>
        match pStr rest2 with
        | some (s, r) => some (String.mk [pEsc e] ++ s, r)
        | none => none
    else
      match pStr rest with
      | some (s, r) => some (String.mk [c] ++ s, r)
      | none => none

def pDigits (cs : List Char) : List Char × List Char :=
  (cs.takeWhile Char.isDigit, cs.dropWhile Char.isDigit)

def digitsToNat (ds : List Char) : Nat :=
  ds.foldl (fun acc c => 10 * acc + (c.toNat - '0'.toNat)) 0

/-- Parse a decimal numeral (optional sign, digits, optional fraction);
fails on exponents, which the program's traffic never contains. -/
def pNum (cs : List Char) : Option (Json × List Char) :=
  let (neg, cs1) := match cs with
    | '-' :: r => (true, r)
    | _ => (false, cs)
  let (ds, cs2) := pDigits cs1
  if ds.isEmpty then none
  else
    let i : Int := if neg then -(digitsToNat ds : Int) else (digitsToNat ds : Int)
    match cs2 with
    | '.' :: cs3 =>
      let (fs, cs4) := pDigits cs3
      if fs.isEmpty then none
      else
        match cs4 with
        | 'e' :: _ => none
        | 'E' :: _ => none
        | r => some (.num i (String.mk fs), r)
    | 'e' :: _ => none
    | 'E' :: _ => none
    | r => some (.num i "", r)

/-- A partially built JSON container on the parser stack. -/
inductive PFrame : Type where
  | arrF : List Json → PFrame
  | objF : List (String × Json) → String → PFrame

/-- The parser loop: `pending = none` parses a value at the head of the
input, `pending = some v` delivers a finished value to the innermost
open container (duplicate object keys overwrite in place, as in JS). -/
def parseLoop : Nat → List Char → List PFrame → Option Json → Option (Json × List Char)
  | 0, _, _, _ => none
  | _ + 1, cs, [], some v => some (v, cs)
  | fuel + 1, cs, .arrF acc :: st, some v =>
    (match pSkip cs with
     | ',' :: r => parseLoop fuel r (.arrF (acc ++ [v]) :: st) none
     | ']' :: r => parseLoop fuel r st (some (.arr (acc ++ [v])))
     | _ => none)
  | fuel + 1, cs, .objF acc k :: st, some v =>
    (match pSkip cs with
     | ',' :: r =>
       (match pSkip r with
        | '\"' :: r2 =>
          (match pStr r2 with
           | some (k2, r3) =>
             (match pSkip r3 with
              | ':' :: r4 => parseLoop fuel r4 (.objF (Json.setAssoc acc k v) k2 :: st) none
              | _ => none)
           | none => none)
        | _ => none)
     | '\x7d' :: r => parseLoop fuel r st (some (.obj (Json.setAssoc acc k v)))
     | _ => none)
  | fuel + 1, cs, st, none =>
    (match pSkip cs with
     | '[' :: rest =>
       (match pSkip rest with
        | ']' :: r2 => parseLoop fuel r2 st (some (.arr []))
        | _ => parseLoop fuel rest (.arrF [] :: st) none)
     | '\x7b' :: rest =>
       (match pSkip rest with
        | '\x7d' :: r2 => parseLoop fuel r2 st (some (.obj []))
        | '\"' :: r2 =>
          (match pStr r2 with
           | some (k, r3) =>
             (match pSkip r3 with
              | ':' :: r4 => parseLoop fuel r4 (.objF [] k :: st) none
              | _ => none)
           | none => none)
        | _ => none)
     | '\"' :: rest =>
       (match pStr rest with
        | some (s, r) => parseLoop fuel r st (some (.str s))
        | none => none)
     | 't' :: 'r' :: 'u' :: 'e' :: r => parseLoop fuel r st (some (.bool true))
     | 'f' :: 'a' :: 'l' :: 's' :: 'e' :: r => parseLoop fuel r st (some (.bool false))
     | 'n' :: 'u' :: 'l' :: 'l' :: r => parseLoop fuel r st (some .null)
     | other =>
       (match pNum other with
        | some (j, r) => parseLoop fuel r st (some j)
        | none => none))

/-- Model of `JSON.parse(s)`: `none` is a thrown `SyntaxError`. -/
def jsonParse (s : String) : Option Json :=
  match parseLoop (2 * s.length + 8) s.toList [] none with
  | some (v, rest) => if pSkip rest = [] then some v else none
  | none => none

example : jsonParse "\x7b\"foo\":1\x7d" = some (.obj [("foo", .num 1 "")]) := by rfl
example : jsonParse "\x7b\"query\":\"\x7ba\x7d\"\x7d" = some (.obj [("query", .str "\x7ba\x7d")]) := by rfl
example : jsonParse "[1, 0.9, \"x\", null, true]" =
    some (.arr [.num 1 "", .num 0 "9", .str "x", .null, .bool true]) := by rfl
example : jsonParse "oops" = none := by rfl
example : jsonParse "" = none := by rfl
example : jsonParse "\x7b\"a\":\x7b\"b\":[]\x7d\x7d" =
    some (.obj [("a", .obj [("b", .arr [])])]) := by rfl

/-! ### Classifier (`content-script.js` lines 60-91, `isGraphQLRequest`) -/

/-- Lower-case an ASCII letter (the `/i` regex flag; the addresses the
program matches are ASCII). -/
def asciiLower (c : Char) : Char :=
  if 'A' ≤ c && c ≤ 'Z' then Char.ofNat (c.toNat + 32) else c

/-- Whether `needle` occurs as a contiguous substring of the given list. -/
def hasSubstr (needle : List Char) : List Char → Bool
  | [] => needle.isEmpty
  | c :: rest => needle.isPrefixOf (c :: rest) || hasSubstr needle rest

/-- Regex word character `\w`. -/
def isWordChar (c : Char) : Bool :=
  ('a' ≤ c && c ≤ 'z') || ('A' ≤ c && c ≤ 'Z') || ('0' ≤ c && c ≤ '9') || c = '_'

def nonWordBefore : Option Char → Bool
  | none => true
  | some c => !isWordChar c

def nonWordAfter : List Char → Bool
  | [] => true
  | c :: _ => !isWordChar c

/-- The regex `/\bgql\b/` on an already lower-cased character list. -/
def hasGqlWord (prev : Option Char) : List Char → Bool
  | [] => false
  | c :: rest =>
    (c = 'g' &&
      (match rest with
       | 'q' :: 'l' :: rest2 => nonWordBefore prev && nonWordAfter rest2
       | _ => false)) ||
    hasGqlWord (some c) rest

namespace ContentScript

/-- Model of `config.graphqlPatterns.some(pattern => pattern.test(url))`
(`content-script.js` lines 11-18 and 62): the ordered, case-insensitive
address patterns `/graphql/`, `/api\/gql/`, `/\bgql\b/`, `/query/`,
`/subscriptions/`, `/zuul/`. -/
def urlPatternMatch (url : String) : Bool :=
  let l := url.toList.map asciiLower
  hasSubstr "graphql".toList l ||
  hasSubstr "api/gql".toList l ||
  hasGqlWord none l ||
  hasSubstr "query".toList l ||
  hasSubstr "subscriptions".toList l ||
  hasSubstr "zuul".toList l

/-- The callback of `jsonBody.some(item => item.query || item.operationName)`
folded over a batched array (line 76). -/
def graphqlSomeItem : List Json → Except Unit Bool
  | [] => pure false
  | item :: rest => do
    let q ← item.getF "query"
    if q.truthy then pure true
    else
      let op ← item.getF "operationName"
      if op.truthy then pure true
      else graphqlSomeItem rest

/-- The test `Array.isArray(jsonBody) && jsonBody.some(...)` of line 76. -/
def graphqlArrCase : Json → Except Unit Bool
  | .arr items => graphqlSomeItem items
  | _ => pure false

/-- The parsed-body heuristic of `isGraphQLRequest` (lines 71-77); the
property reads sit inside the function's `try`, so a thrown `TypeError`
(body parsed to `null`, or a `null` element of a batched array) is an
`.error` handled by the caller. -/
def graphqlBodyCheck (jsonBody : Json) : Except Unit Bool := do
  let q ← jsonBody.getF "query"
  if q.truthy then pure true
  else
    let m ← jsonBody.getF "mutation"
    if m.truthy then pure true
    else
      let op ← jsonBody.getF "operationName"
      if op.truthy then pure true
      else
        let ext ← jsonBody.getF "extensions"
        if ext.truthy then
          let pq ← ext.getF "persistedQuery"
          if pq.truthy then pure true
          else graphqlArrCase jsonBody
        else graphqlArrCase jsonBody

/-- Model of `isGraphQLRequest(url, body)` (`content-script.js` lines 60-91):
URL patterns first; only if none matches and the body is a non-empty
string is the body parsed, and any parse failure or thrown property
access yields `false`.  JS returns the last falsy value of the `||`
chain (e.g. `undefined`); the function is only ever used as a condition,
so the model returns its truthiness. -/
def isGraphQLRequest (url : String) (body : Json) : Bool :=
  if urlPatternMatch url then true
  else
    match body with
    | .str s =>
      if s = "" then false
      else
        match jsonParse s with
        | none => false
        | some jsonBody =>
          match graphqlBodyCheck jsonBody with
          | .ok b => b
          | .error _ => false
    | _ => false

example : urlPatternMatch "https://x/graphql?id=1" = true := by rfl
example : urlPatternMatch "https://x/other" = false := by rfl
example : urlPatternMatch "https://a/api/GQL/x" = true := by rfl
example : urlPatternMatch "https://a/v1/gql?x" = true := by rfl
example : urlPatternMatch "https://a/v1/gqlx" = false := by rfl
example : isGraphQLRequest "https://x/other" (.str "\x7b\"foo\":1\x7d") = false := by rfl
example : isGraphQLRequest "https://x/other" (.str "\x7b\"query\":\"\x7ba\x7d\"\x7d") = true := by rfl
example : isGraphQLRequest "https://x/other" (.str "null") = false := by rfl
example : isGraphQLRequest "https://x/other" (.str "not json") = false := by rfl
example : isGraphQLRequest "https://x/other" (.obj [("query", .str "\x7ba\x7d")]) = false := by rfl

end ContentScript

/-! ### Correlation cache (`responseCapture.responseMap`)

The cache is a JS `Map` keyed by the full request URL
(`content-script.js` lines 41-48, 375-384, 1871, 1874-1887, 1975-1992).
A JS `Map` iterates in insertion order and `set` on an existing key
keeps the entry's position; the model is an ordered association list. -/

/-- The record stored per URL by the ingest path (lines 375-384); the
timestamp is modelled as milliseconds since the epoch (the source stores
an ISO string and compares `new Date(value.timestamp).getTime()`). -/
structure CapturedResponse : Type where
  url : String
  method : String
  requestBody : Json
  responseBody : Json
  responseText : String
  status : Int
  headers : List (String × String)
  timestamp : Nat

/-- Model of `Map.prototype.set`: replace in place if the key exists, else append. -/
def mapSet {α : Type} : List (String × α) → String → α → List (String × α)
  | [], k, v => [(k, v)]
  | (k1, v1) :: t, k, v => if k1 = k then (k, v) :: t else (k1, v1) :: mapSet t k v

/-- Model of `Map.prototype.get`: first (unique) entry with the key. -/
def mapGet {α : Type} : List (String × α) → String → Option α
  | [], _ => none
  | (k1, v1) :: t, k => if k1 = k then some v1 else mapGet t k

/-- The response correlation cache. -/
abbrev ResponseMap := List (String × CapturedResponse)

namespace ContentScript

/-- The constant `maxAge = 5 * 60 * 1000` ms (line 1977). -/
def maxAgeMs : Nat := 5 * 60 * 1000

/-- The periodic cleanup pass over `responseCapture.responseMap`
(lines 1979-1984): every entry with `now - timestamp > maxAge` is
deleted, every other entry is kept. -/
def sweepResponses (now : Nat) (m : ResponseMap) : ResponseMap :=
  m.filter (fun e => !(maxAgeMs < now - e.2.timestamp))

/-- Model of `startsWith` of JS strings. -/
def strStartsWith (s p : String) : Bool :=
  p.toList.isPrefixOf s.toList

/-- Model of `url.split('?')[0]`: the address up to (excluding) the first `?`. -/
def stripQuery (s : String) : String :=
  String.mk (s.toList.takeWhile (fun c => c ≠ '?'))

/-- The prefix fallback of the `captureResponseBody` handler
(lines 1874-1887): scan the stored entries in iteration order and return
the first whose stored URL starts with the request URL's pre-query
prefix. -/
def urlPrefixLookup (m : ResponseMap) (url : String) : Option CapturedResponse :=
  match m.find? (fun e => strStartsWith e.1 (stripQuery url)) with
  | some e => some e.2
  | none => none

end ContentScript

example : ContentScript.stripQuery "https://a/api?x=1" = "https://a/api" := by rfl
example : ContentScript.strStartsWith "https://a/api?x=1" "https://a/api" = true := by rfl
example : ContentScript.strStartsWith "https://a/other" "https://a/api" = false := by rfl

/-! ### Canonical graph model and the background-script extractor

Two copies of `transformToClusterData` exist in the repository: the
background script (`src/unnamed/part_000`, lines 78-130), which returns
`null` whenever no recognized cluster shape is found, and the content
script (`content-script.js`, lines 676-945), which substitutes mock
placeholder data on every failure path.  Both are embedded below. -/

/-- One canonical node `{person_id, name}` of the visualizer format. -/
structure CNode : Type where
  person_id : Json
  name : Json

/-- One canonical edge of the visualizer format. -/
structure CEdge : Type where
  lower_person_id : Json
  higher_person_id : Json
  status : Json
  sub_status_type : Json
  notes : Json

/-- The canonical cluster graph `{id, nodes, edges}`. -/
structure ClusterData : Type where
  id : Json
  nodes : List CNode
  edges : List CEdge

/-- The member-to-node arrow function shared verbatim by both extractors
(`part_000` lines 108-111, `content-script.js` lines 907-910):
`member => ({person_id: member.node.id, name: member.node.name || 'No name'})`. -/
def canonMember (member : Json) : Except Unit CNode := do
  let node ← member.getF "node"
  let pid ← node.getF "id"
  let nm ← node.getF "name"
  pure ⟨pid, if nm.truthy then nm else .str "No name"⟩

/-- The sub-status ternary of the shared edge map:
`edge.subStatuses && edge.subStatuses.length > 0 ? edge.subStatuses[0] : null`. -/
def subStatusOf (subs : Json) : Except Unit Json :=
  if subs.truthy then do
    let len ← subs.getF "length"
    if len.gtZero then subs.idxF 0 else pure .null
  else pure .null

/-- The notes ternary of the shared edge map:
``edge.vector ? `Scores: Name=..., Email=..., Phone=...` : null``. -/
def notesOf (vec : Json) : Except Unit Json :=
  if vec.truthy then do
    let ns ← vec.getF "nameScore"
    let es ← vec.getF "emailScore"
    let ps ← vec.getF "phoneScore"
    pure (Json.str ("Scores: Name=" ++ jsToString ns ++ ", Email=" ++ jsToString es ++
      ", Phone=" ++ jsToString ps))
  else pure .null

/-- The raw-edge-to-edge arrow function shared verbatim by both extractors
(`part_000` lines 113-119, `content-script.js` lines 912-918). -/
def canonEdge (edge : Json) : Except Unit CEdge := do
  let nodeA ← edge.getF "nodeA"
  let lo ← nodeA.getF "id"
  let nodeB ← edge.getF "nodeB"
  let hi ← nodeB.getF "id"
  let status ← edge.getF "status"
  let subs ← edge.getF "subStatuses"
  let subStatus ← subStatusOf subs
  let vec ← edge.getF "vector"
  let notes ← notesOf vec
  pure ⟨lo, hi, status, subStatus, notes⟩

namespace Background

/-- The `isClusterData(response)` body inside its `try` (`part_000` lines
35-60): recognizes `data.prsn_deduplicationClusters` or
`data.deduplicationClusters`, in an array or a single object. -/
def isClusterDataItems : List Json → Except Unit Bool
  | [] => pure false
  | item :: rest => do
    let d ← item.getF "data"
    if d.truthy then
      let p ← d.getF "prsn_deduplicationClusters"
      if p.truthy then pure true
      else do
        let q ← d.getF "deduplicationClusters"
        if q.truthy then pure true else isClusterDataItems rest
    else isClusterDataItems rest

def isClusterDataE (response : Json) : Except Unit Bool :=
  if !response.truthy then pure false
  else
    match response with
    | .arr items => isClusterDataItems items
    | _ => do
      let d ← response.getF "data"
      if d.truthy then
        let p ← d.getF "prsn_deduplicationClusters"
        if p.truthy then pure true
        else do
          let q ← d.getF "deduplicationClusters"
          pure q.truthy
      else pure false

/-- Model of `isClusterData` with its `catch` (which logs and falls through to
`return false`). -/
def isClusterData (response : Json) : Bool :=
  match isClusterDataE response with
  | .ok b => b
  | .error _ => false

/-- The array scan of `transformToClusterData` (`part_000` lines 83-90):
first item whose truthy `data.prsn_deduplicationClusters` exists. -/
def scanClusterItems : List Json → Except Unit (Option Json)
  | [] => pure none
  | item :: rest => do
    let d ← item.getF "data"
    if d.truthy then
      let p ← d.getF "prsn_deduplicationClusters"
      if p.truthy then pure (some p) else scanClusterItems rest
    else scanClusterItems rest

/-- Lines 83-94: locate the raw collection (`clusterData`). -/
def findClusterData (response : Json) : Except Unit (Option Json) :=
  match response with
  | .arr items => scanClusterItems items
  | _ => do
    let d ← response.getF "data"
    if d.truthy then
      let p ← d.getF "prsn_deduplicationClusters"
      if p.truthy then pure (some p) else pure none
    else pure none

/-- Lines 96-105 up to the first guard: reject unless `clusterData` is
truthy with a truthy `edges` of truthy `length`, then take
`clusterData.edges[0].node` as the raw-cluster candidate (rejected if
falsy). -/
def findCandidate (response : Json) : Except Unit (Option Json) := do
  match ← findClusterData response with
  | none => pure none
  | some cd =>
    let edges ← cd.getF "edges"
    if !edges.truthy then pure none
    else do
      let len ← edges.getF "length"
      if !len.truthy then pure none
      else do
        let e0 ← edges.idxF 0
        let cluster ← e0.getF "node"
        if cluster.truthy then pure (some cluster) else pure none

/-- The shape validation of lines 103-105: the candidate is accepted only
if both `cluster.edges` and `cluster.members` are truthy; the result
carries those two values. -/
def acceptCandidate (cluster : Json) : Except Unit (Option (Json × Json)) := do
  let ce ← cluster.getF "edges"
  if !ce.truthy then pure none
  else do
    let cm ← cluster.getF "members"
    if !cm.truthy then pure none
    else pure (some (ce, cm))

/-- The combined shape search: the accepted candidate together with its
raw edges and members, or `none` when some stage rejected. -/
def acceptedCluster (response : Json) : Except Unit (Option (Json × Json × Json)) := do
  match ← findCandidate response with
  | none => pure none
  | some cluster =>
    match ← acceptCandidate cluster with
    | none => pure none
    | some (ce, cm) => pure (some (cluster, ce, cm))

/-- Returns `true` iff the ordered shape search of the background extractor
accepts some raw-cluster candidate in `response` (no fault, every guard
passed). -/
def shapeFound (response : Json) : Bool :=
  match acceptedCluster response with
  | .ok (some _) => true
  | _ => false

/-- Lines 107-125: canonicalize the accepted candidate.  `members.map`
and `edges.map` throw unless the values are arrays; the `id` field of
the result literal is read after the two maps. -/
def canon (cluster ce cm : Json) : Except Unit ClusterData :=
  match cm, ce with
  | .arr ms, .arr es => do
    let nodes ← mapE canonMember ms
    let edges ← mapE canonEdge es
    let cid ← cluster.getF "id"
    pure ⟨cid, nodes, edges⟩
  | _, _ => .error ()

/-- The body of `transformToClusterData` inside its `try` (lines 79-125). -/
def transformAux (response : Json) : Except Unit (Option ClusterData) := do
  match ← acceptedCluster response with
  | none => pure none
  | some (cluster, ce, cm) => do
    let g ← canon cluster ce cm
    pure (some g)

/-- Model of `transformToClusterData(response)` of the background script
(`part_000` lines 78-130): its `catch` turns every thrown fault into
`null`. -/
def transformToClusterData (response : Json) : Option ClusterData :=
  match transformAux response with
  | .ok v => v
  | .error _ => none

/-- The predicate of `requests.find` in the `getClusterById` handler
(`part_000` lines 212-218), searching for the first stored request whose
response holds cluster data whose transformed id strictly equals the
requested id. -/
def findClusterReq : List Json → Json → Except Unit (Option Json)
  | [], _ => pure none
  | req :: rest, clusterId => do
    let resp ← req.getF "response"
    if isClusterData resp then
      match transformToClusterData resp with
      | some d =>
        if d.id.jsStrictEq clusterId then pure (some req) else findClusterReq rest clusterId
      | none => findClusterReq rest clusterId
    else findClusterReq rest clusterId

/-- The `getClusterById` message handler (`part_000` lines 208-227):
returns the transform of the found request's response, else `null`. -/
def getClusterById (requests : List Json) (clusterId : Json) : Except Unit (Option ClusterData) := do
  match ← findClusterReq requests clusterId with
  | some req => do
    let resp ← req.getF "response"
    pure (transformToClusterData resp)
  | none => pure none

end Background

/-- A fixture response: a single object carrying one cluster with three
members and two edges (ids as in the spec's fixture; one edge carries a
score vector). -/
def fixtureCluster : Json :=
  .obj [("id", .str "cl-1"),
        ("members",
          .arr [.obj [("node", .obj [("id", .str "70107929"), ("name", .str "Alice")])],
                .obj [("node", .obj [("id", .str "70022953"), ("name", .str "Bob")])],
                .obj [("node", .obj [("id", .str "70031591")])]]),
        ("edges",
          .arr [.obj [("nodeA", .obj [("id", .str "70107929")]),
                      ("nodeB", .obj [("id", .str "70022953")]),
                      ("status", .str "PENDING"),
                      ("subStatuses", .arr [.str "S1"]),
                      ("vector", .obj [("nameScore", .num 0 "9"),
                                       ("emailScore", .num 0 "8"),
                                       ("phoneScore", .num 0 "7")])],
                .obj [("nodeA", .obj [("id", .str "70022953")]),
                      ("nodeB", .obj [("id", .str "70031591")]),
                      ("status", .str "PENDING")]])]

def fixtureResponse : Json :=
  .obj [("data", .obj [("prsn_deduplicationClusters",
    .obj [("edges", .arr [.obj [("node", fixtureCluster)]])])])]

example : Background.transformToClusterData fixtureResponse =
    some ⟨.str "cl-1",
      [⟨.str "70107929", .str "Alice"⟩, ⟨.str "70022953", .str "Bob"⟩,
       ⟨.str "70031591", .str "No name"⟩],
      [⟨.str "70107929", .str "70022953", .str "PENDING", .str "S1",
        .str "Scores: Name=0.9, Email=0.8, Phone=0.7"⟩,
       ⟨.str "70022953", .str "70031591", .str "PENDING", .null, .null⟩]⟩ := by rfl

example : Background.transformToClusterData (.obj []) = none := by rfl
example : Background.transformToClusterData .null = none := by rfl
example : Background.transformToClusterData (.arr [.null]) = none := by rfl

namespace ContentScript

/-- The mock placeholder graph the content-script extractor substitutes on
its failure paths (`content-script.js` lines 827-838, 850-861, 931-942);
`cid` is interpolated into the person ids. -/
def mockGraph (cid : Json) : ClusterData :=
  ⟨cid,
   [⟨.str (jsToString cid ++ "-1"), .str "Person 1"⟩,
    ⟨.str (jsToString cid ++ "-2"), .str "Person 2"⟩,
    ⟨.str (jsToString cid ++ "-3"), .str "Person 3"⟩],
   [⟨.str (jsToString cid ++ "-1"), .str (jsToString cid ++ "-2"), .str "PENDING", .null,
     .str "Scores: Name=0.9, Email=0.8, Phone=0.7"⟩,
    ⟨.str (jsToString cid ++ "-2"), .str (jsToString cid ++ "-3"), .str "ACCEPTED", .null,
     .str "Scores: Name=0.95, Email=0.85, Phone=0.75"⟩]⟩

/-- Lines 682-693: the direct array format (first element only, both
collection field names tried in order). -/
def branchA (response : Json) : Except Unit (Option Json) :=
  match response with
  | .arr (first :: _) => do
    let d ← first.getF "data"
    if d.truthy then
      let p ← d.getF "prsn_deduplicationClusters"
      if p.truthy then pure (some p)
      else do
        let q ← d.getF "deduplicationClusters"
        if q.truthy then pure (some q) else pure none
    else pure none
  | _ => pure none

/-- Lines 700-727: unwrap `response.data.responseBody` (parsing it when
it is a string; a failed parse keeps the string) and look for either
collection field, in an array or a single object. -/
def branchB1 (response : Json) : Except Unit (Option Json) := do
  let d ← response.getF "data"
  if d.truthy then do
    let rb0 ← d.getF "responseBody"
    if rb0.truthy then
      let rb := match rb0 with
        | .str s => (match jsonParse s with | some j => j | none => .str s)
        | j => j
      match rb with
      | .arr (first :: _) => do
        let fd ← first.getF "data"
        if fd.truthy then
          let p ← fd.getF "prsn_deduplicationClusters"
          if p.truthy then pure (some p)
          else do
            let q ← fd.getF "deduplicationClusters"
            if q.truthy then pure (some q) else pure none
        else pure none
      | other => do
        if other.truthy then do
          let rd ← other.getF "data"
          if rd.truthy then
            let p ← rd.getF "prsn_deduplicationClusters"
            if p.truthy then pure (some p)
            else do
              let q ← rd.getF "deduplicationClusters"
              if q.truthy then pure (some q) else pure none
          else pure none
        else pure none
    else pure none
  else pure none

/-- Lines 736-765: scan the previously observed payloads
(`window.allGraphQLResponses`) for a cluster collection. -/
def scanAllForCluster : List Json → Except Unit (Option Json)
  | [] => pure none
  | g :: rest =>
    if g.truthy && g.isObjectLike then
      match g with
      | .arr (first :: _) => do
        let fd ← first.getF "data"
        if fd.truthy then
          let p ← fd.getF "prsn_deduplicationClusters"
          if p.truthy then pure (some p) else scanAllForCluster rest
        else scanAllForCluster rest
      | .arr [] => scanAllForCluster rest
      | _ => do
        let gd ← g.getF "data"
        if gd.truthy then
          let p ← gd.getF "prsn_deduplicationClusters"
          if p.truthy then pure (some p)
          else do
            let person ← gd.getF "person"
            if person.truthy then
              let dc ← person.getF "deduplicationCluster"
              if dc.truthy then pure (some (.obj [("edges", .arr [.obj [("node", dc)]])]))
              else scanAllForCluster rest
            else scanAllForCluster rest
        else do
          let rb ← g.getF "responseBody"
          if rb.truthy then do
            let rd ← rb.getF "data"
            if rd.truthy then
              let p ← rd.getF "prsn_deduplicationClusters"
              if p.truthy then pure (some p) else scanAllForCluster rest
            else scanAllForCluster rest
          else scanAllForCluster rest
    else scanAllForCluster rest

/-- Lines 730-782: the first `getPersonClusterDetails` request item with a
truthy `variables.id` triggers the scan; when the scan finds nothing the
code synthesizes an empty raw cluster carrying that id. -/
def b2Items (allResponses : List Json) : List Json → Except Unit (Option Json)
  | [] => pure none
  | item :: rest => do
    let op ← item.getF "operationName"
    if op.jsStrictEq (.str "getPersonClusterDetails") then do
      let vars ← item.getF "variables"
      if vars.truthy then do
        let vid ← vars.getF "id"
        if vid.truthy then do
          match ← scanAllForCluster allResponses with
          | some cd => pure (some cd)
          | none =>
            let innerNode : Json := .obj [("id", vid), ("edges", .arr []), ("members", .arr [])]
            pure (some (.obj [("edges", .arr [.obj [("node", innerNode)]])]))
        else b2Items allResponses rest
      else b2Items allResponses rest
    else b2Items allResponses rest

def branchB2 (allResponses : List Json) (response : Json) : Except Unit (Option Json) := do
  let rb ← response.getF "requestBody"
  if rb.truthy then
    match rb with
    | .arr items => b2Items allResponses items
    | _ => pure none
  else pure none

/-- Lines 696-785: the whole `captureResponseBody` branch. -/
def branchB (allResponses : List Json) (response : Json) : Except Unit (Option Json) := do
  match ← branchB1 response with
  | some c => pure (some c)
  | none => branchB2 allResponses response

/-- Lines 809-816: pick the mock id from the first matching
`getPersonClusterDetails` request item. -/
def findCid : List Json → Except Unit Json
  | [] => pure (.str "0")
  | item :: rest => do
    let op ← item.getF "operationName"
    if op.jsStrictEq (.str "getPersonClusterDetails") then do
      let vars ← item.getF "variables"
      if vars.truthy then do
        let vid ← vars.getF "id"
        if vid.truthy then pure vid else findCid rest
      else findCid rest
    else findCid rest

/-- Lines 804-824: choose the id for the fabricated graph. -/
def mockClusterId (response : Json) : Except Unit Json := do
  let act ← response.getF "action"
  let fromReq ←
    if act.jsStrictEq (.str "captureResponseBody") then do
      let rb ← response.getF "requestBody"
      pure (if rb.truthy && rb.isArr then some rb else none)
    else pure none
  match fromReq with
  | some (.arr items) => findCid items
  | some _ => pure (.str "0")
  | none =>
    if response.isObjectLike then do
      let c ← response.getF "clusterId"
      if c.truthy then pure c
      else do
        let i ← response.getF "id"
        if i.truthy then pure i else pure (.str "0")
    else pure (.str "0")

/-- The mock member list of lines 871-875 as raw JSON. -/
def mockNodesJson (cid : Json) : List Json :=
  [.obj [("id", .str (jsToString cid ++ "-1")), ("name", .str "Person 1")],
   .obj [("id", .str (jsToString cid ++ "-2")), ("name", .str "Person 2")],
   .obj [("id", .str (jsToString cid ++ "-3")), ("name", .str "Person 3")]]

/-- The mock raw-edge list of lines 877-880. -/
def mockEdgesJson (cid : Json) : List Json :=
  [.obj [("nodeA", .obj [("id", .str (jsToString cid ++ "-1"))]),
         ("nodeB", .obj [("id", .str (jsToString cid ++ "-2"))]),
         ("status", .str "PENDING"), ("subStatuses", .arr []),
         ("vector", .obj [("nameScore", .num 0 "9"), ("emailScore", .num 0 "8"),
                          ("phoneScore", .num 0 "7")])],
   .obj [("nodeA", .obj [("id", .str (jsToString cid ++ "-2"))]),
         ("nodeB", .obj [("id", .str (jsToString cid ++ "-3"))]),
         ("status", .str "ACCEPTED"), ("subStatuses", .arr []),
         ("vector", .obj [("nameScore", .num 0 "95"), ("emailScore", .num 0 "85"),
                          ("phoneScore", .num 0 "75")])]]

/-- Lines 883-886: `node => ({person_id: node.id, name: node.name || 'No name'})`. -/
def mockNodeCanon (node : Json) : Except Unit CNode := do
  let pid ← node.getF "id"
  let nm ← node.getF "name"
  pure ⟨pid, if nm.truthy then nm else .str "No name"⟩

/-- Lines 866-903: the "different format" branch — fabricate three mock
members and two mock scored edges keyed on `cluster.id || '0'` and run
them through the canonical maps. -/
def branchG (cluster : Json) : Except Unit ClusterData := do
  let cidRaw ← cluster.getF "id"
  let cid := if cidRaw.truthy then cidRaw else .str "0"
  let nodes ← mapE mockNodeCanon (mockNodesJson cid)
  let edges ← mapE canonEdge (mockEdgesJson cid)
  pure ⟨cid, nodes, edges⟩

/-- The body of the content-script `transformToClusterData` inside its
`try` (lines 677-927).  `allResponses` stands for the ambient
`window.allGraphQLResponses` read by the branch of lines 736-765. -/
def transformAux (allResponses : List Json) (response : Json) : Except Unit ClusterData := do
  let cd0 ← branchA response
  let cd1 ← match cd0 with
    | some c => pure (some c)
    | none => do
      let act ← response.getF "action"
      if act.jsStrictEq (.str "captureResponseBody") then branchB allResponses response
      else pure none
  let cd2 ← match cd1 with
    | some c => pure (some c)
    | none =>
      match response with
      | .arr items => Background.scanClusterItems items
      | _ => do
        let d ← response.getF "data"
        if d.truthy then
          let p ← d.getF "prsn_deduplicationClusters"
          if p.truthy then pure (some p) else pure none
        else pure none
  let passed ← match cd2 with
    | none => pure none
    | some cd => do
      let edges ← cd.getF "edges"
      if !edges.truthy then pure none
      else do
        let len ← edges.getF "length"
        if !len.truthy then pure none else pure (some edges)
  match passed with
  | none => do
    let cid ← mockClusterId response
    pure (mockGraph cid)
  | some edges => do
    let e0 ← edges.idxF 0
    let cluster ← e0.getF "node"
    if !cluster.truthy then pure (mockGraph (.str "0"))
    else do
      let ce ← cluster.getF "edges"
      let ok ←
        if ce.truthy then do
          let cm ← cluster.getF "members"
          pure cm.truthy
        else pure false
      if !ok then branchG cluster
      else do
        let cm ← cluster.getF "members"
        Background.canon cluster ce cm

/-- Model of `transformToClusterData(response)` of the content script
(`content-script.js` lines 676-945): every failure path — including the
final `catch` — returns a fabricated placeholder graph; the function can
never return `null`. -/
def transformToClusterData (allResponses : List Json) (response : Json) : ClusterData :=
  match transformAux allResponses response with
  | .ok g => g
  | .error _ => mockGraph (.str "0")

end ContentScript

example : ContentScript.transformToClusterData [] (.obj []) =
    ContentScript.mockGraph (.str "0") := by rfl
example : ContentScript.transformToClusterData [] .null =
    ContentScript.mockGraph (.str "0") := by rfl
example : some (ContentScript.transformToClusterData [] fixtureResponse) =
    Background.transformToClusterData fixtureResponse := by rfl

namespace ContentScript

/-- The item test of lines 1216-1219: a `getPersonClusterDetails` request
item whose `variables.id` strictly equals the requested id. -/
def p1Items (clusterId : String) : List Json → Except Unit Bool
  | [] => pure false
  | item :: rest => do
    let op ← item.getF "operationName"
    if op.jsStrictEq (.str "getPersonClusterDetails") then do
      let vars ← item.getF "variables"
      if vars.truthy then do
        let vid ← vars.getF "id"
        if vid.jsStrictEq (.str clusterId) then pure true else p1Items clusterId rest
      else p1Items clusterId rest
    else p1Items clusterId rest

/-- The guarded direct-response test of lines 1233-1250 (its `try`'s
`catch` ignores errors and moves on). -/
def directMatchE (resp : Json) (clusterId : String) : Except Unit Bool := do
  let d ← resp.getF "data"
  if d.truthy then do
    let p ← d.getF "prsn_deduplicationClusters"
    if p.truthy then do
      let es ← p.getF "edges"
      if es.truthy then do
        let len ← es.getF "length"
        if len.gtZero then do
          let e0 ← es.idxF 0
          let node ← e0.getF "node"
          let nid ← node.getF "id"
          pure (nid.jsStrictEq (.str clusterId))
        else pure false
      else pure false
    else pure false
  else pure false

def directMatch (resp : Json) (clusterId : String) : Bool :=
  match directMatchE resp clusterId with
  | .ok b => b
  | .error _ => false

/-- The exact-match pass of `fetchAndVisualizeCluster`
(lines 1210-1251). -/
def fetchPass1 (allResponses : List Json) (clusterId : String) :
    List Json → Except Unit (Option ClusterData)
  | [] => pure none
  | resp :: rest => do
    let act ← resp.getF "action"
    let m1 ←
      if act.jsStrictEq (.str "captureResponseBody") then do
        let rb ← resp.getF "requestBody"
        if rb.truthy && rb.isArr then
          match rb with
          | .arr items => p1Items clusterId items
          | _ => pure false
        else pure false
      else pure false
    if m1 then pure (some (transformToClusterData allResponses resp))
    else
      if directMatch resp clusterId then
        pure (some (transformToClusterData allResponses resp))
      else fetchPass1 allResponses clusterId rest

/-- The item test of lines 1261-1263: any `getPersonClusterDetails`
request item with a truthy `variables.id`. -/
def p2Items : List Json → Except Unit Bool
  | [] => pure false
  | item :: rest => do
    let op ← item.getF "operationName"
    if op.jsStrictEq (.str "getPersonClusterDetails") then do
      let vars ← item.getF "variables"
      if vars.truthy then do
        let vid ← vars.getF "id"
        if vid.truthy then pure true else p2Items rest
      else p2Items rest
    else p2Items rest

/-- Lines 1267-1271: on the deep copy, overwrite `variables.id` of every
`getPersonClusterDetails` request item with the requested id. -/
def modifyItem (clusterId : String) (item : Json) : Except Unit Json := do
  let op ← item.getF "operationName"
  if op.jsStrictEq (.str "getPersonClusterDetails") then do
    let vars ← item.getF "variables"
    let vars2 ← vars.setF "id" (.str clusterId)
    item.setF "variables" vars2
  else pure item

/-- The deep copy `JSON.parse(JSON.stringify(response))` followed by the rewrite loop of
lines 1266-1271 (the deep copy is the identity on our immutable values). -/
def modifyResponse (clusterId : String) (resp : Json) : Except Unit Json := do
  let rb ← resp.getF "requestBody"
  match rb with
  | .arr items => do
    let items2 ← mapE (modifyItem clusterId) items
    resp.setF "requestBody" (.arr items2)
  | _ => pure resp

/-- The fallback pass of `fetchAndVisualizeCluster` (lines 1254-1286):
reuse any `getPersonClusterDetails` response, rewrite its request id,
transform, and stamp the produced graph with the requested id. -/
def fetchPass2 (allResponses : List Json) (clusterId : String) :
    List Json → Except Unit (Option ClusterData)
  | [] => pure none
  | resp :: rest => do
    let act ← resp.getF "action"
    let found ←
      if act.jsStrictEq (.str "captureResponseBody") then do
        let rb ← resp.getF "requestBody"
        if rb.truthy && rb.isArr then
          match rb with
          | .arr items => p2Items items
          | _ => pure false
        else pure false
      else pure false
    if found then do
      let modified ← modifyResponse clusterId resp
      let g := transformToClusterData allResponses modified
      pure (some { g with id := .str clusterId })
    else fetchPass2 allResponses clusterId rest

/-- The intercepted-data part of `fetchAndVisualizeCluster`
(`content-script.js` lines 1193-1287) for a non-empty requested id:
the graph handed to `visualizeCluster`, or `none` when the function falls
back to asking the background script. -/
def fetchAndVisualizeCluster (allResponses : List Json) (clusterId : String) :
    Except Unit (Option ClusterData) := do
  match ← fetchPass1 allResponses clusterId allResponses with
  | some g => pure (some g)
  | none => fetchPass2 allResponses clusterId allResponses

end ContentScript

/-! ### Visualizer link validation (`content-script.js` lines 1590-1617) -/

/-- A node prepared for D3 (line 1591-1594). -/
structure VizNode : Type where
  id : Json
  name : Json

/-- A link prepared for D3 (lines 1598-1604). -/
structure VizLink : Type where
  source : Json
  target : Json
  status : Json
  subStatus : Json
  notes : Json

namespace ContentScript

def vizNodes (d : ClusterData) : List VizNode :=
  d.nodes.map (fun n => ⟨n.person_id, if n.name.truthy then n.name else .str "No name"⟩)

def vizLinks (d : ClusterData) : List VizLink :=
  d.edges.map (fun e =>
    ⟨e.lower_person_id, e.higher_person_id, e.status, e.sub_status_type, e.notes⟩)

/-- Model of `new Set(nodes.map(n => n.id))` (line 1609). -/
def nodeIdSet (d : ClusterData) : List Json :=
  (vizNodes d).map (fun n => n.id)

/-- Model of `Set.prototype.has` under the strict-equality model. -/
def idSetHas (ids : List Json) (x : Json) : Bool :=
  ids.any (fun i => i.jsStrictEq x)

/-- Lines 1610-1617: keep exactly the links whose source and target both
exist among the node ids. -/
def validLinks (d : ClusterData) : List VizLink :=
  (vizLinks d).filter (fun l => idSetHas (nodeIdSet d) l.source && idSetHas (nodeIdSet d) l.target)

end ContentScript

/-! ### Concrete payloads used to settle the claims -/

/-- Wrap a raw cluster the way the observed responses do:
`{data: {prsn_deduplicationClusters: {edges: [{node: cluster}]}}}`. -/
def wrapCluster (cluster : Json) : Json :=
  .obj [("data", .obj [("prsn_deduplicationClusters",
    .obj [("edges", .arr [.obj [("node", cluster)]])])])]

/-- A raw-cluster candidate that exposes an id but neither a `members`
nor an `edges` list. -/
def bareCluster : Json := .obj [("id", .str "X")]

/-- A response whose shape search reaches a candidate that lacks both
lists. -/
def responseMissingMembers : Json := wrapCluster bareCluster

/-- A structurally valid raw cluster whose single edge references a
member id (`"2"`) that is not among the cluster's members. -/
def clusterDangling : Json :=
  .obj [("id", .str "c"),
        ("members", .arr [.obj [("node", .obj [("id", .str "1"), ("name", .str "A")])]]),
        ("edges", .arr [.obj [("nodeA", .obj [("id", .str "1")]),
                              ("nodeB", .obj [("id", .str "2")]),
                              ("status", .str "PENDING")]])]

def responseDangling : Json := wrapCluster clusterDangling

/-- A valid raw cluster whose single member carries the empty string as
its name (present but falsy). -/
def clusterEmptyName : Json :=
  .obj [("id", .str "e"),
        ("members", .arr [.obj [("node", .obj [("id", .str "1"), ("name", .str "")])]]),
        ("edges", .arr [])]

def responseEmptyName : Json := wrapCluster clusterEmptyName

/-- A structurally valid cluster whose own id is `"A"`. -/
def clusterA : Json :=
  .obj [("id", .str "A"),
        ("members", .arr [.obj [("node", .obj [("id", .str "1"), ("name", .str "P1")])],
                          .obj [("node", .obj [("id", .str "2"), ("name", .str "P2")])]]),
        ("edges", .arr [.obj [("nodeA", .obj [("id", .str "1")]),
                              ("nodeB", .obj [("id", .str "2")]),
                              ("status", .str "PENDING")]])]

/-- The stored response payload carrying `clusterA`. -/
def responseA : Json := wrapCluster clusterA

/-- A stored `captureResponseBody` message: a `getPersonClusterDetails`
request for id `"A"` together with `responseA`. -/
def messageA : Json :=
  .obj [("action", .str "captureResponseBody"),
        ("requestBody", .arr [.obj [("operationName", .str "getPersonClusterDetails"),
                                    ("variables", .obj [("id", .str "A")])]]),
        ("responseBody", responseA)]

/-- The canonical graph of `clusterA`. -/
def graphA : ClusterData :=
  ⟨.str "A",
   [⟨.str "1", .str "P1"⟩, ⟨.str "2", .str "P2"⟩],
   [⟨.str "1", .str "2", .str "PENDING", .null, .null⟩]⟩

/-- A stored request object of the background script holding
`responseA`. -/
def requestRecA : Json := .obj [("url", .str "https://x/graphql"), ("response", responseA)]

/-- A sample cache record (used to instantiate the cache theorems). -/
def sampleRec : CapturedResponse :=
  ⟨"https://a/api?x=1", "POST", .null, .null, "", 200, [], 1000000⟩

def sampleRec2 : CapturedResponse :=
  ⟨"https://a/other", "GET", .null, .null, "", 200, [], 1000000⟩

example : Background.transformToClusterData responseMissingMembers = none := by rfl
example : ContentScript.transformToClusterData [] responseMissingMembers =
    ContentScript.mockGraph (.str "X") := by rfl
example : Background.transformToClusterData responseDangling =
    some ⟨.str "c", [⟨.str "1", .str "A"⟩],
          [⟨.str "1", .str "2", .str "PENDING", .null, .null⟩]⟩ := by rfl
example : Background.transformToClusterData responseEmptyName =
    some ⟨.str "e", [⟨.str "1", .str "No name"⟩], []⟩ := by rfl
example : Background.transformToClusterData responseA = some graphA := by rfl
example : ContentScript.fetchAndVisualizeCluster [messageA] "B" =
    .ok (some { graphA with id := .str "B" }) := by rfl
example : Background.getClusterById [requestRecA] (.str "B") = .ok none := by rfl
example : Background.getClusterById [requestRecA] (.str "A") = .ok (some graphA) := by rfl

def Json.isStr : Json → Bool
  | .str _ => true
  | _ => false

/-- A produced graph whose single edge's `higher_person_id` (`"2"`) does
not occur among its node ids. -/
def graphDangling : ClusterData :=
  ⟨.str "c", [⟨.str "1", .str "A"⟩],
   [⟨.str "1", .str "2", .str "PENDING", .null, .null⟩]⟩

/-! ## Theorems -/

theorem exceptBind_ok {α β : Type} (a : α) (f : α → Except Unit β) :
    (Except.ok a >>= f) = f a := rfl

theorem exceptBind_error {α β : Type} (f : α → Except Unit β) :
    ((Except.error () : Except Unit α) >>= f) = .error () := rfl

theorem exceptPure {α : Type} (a : α) : (pure a : Except Unit α) = .ok a := rfl

theorem mapGet_mapSet_same {α : Type} (m : List (String × α)) (k : String) (v : α) :
    mapGet (mapSet m k v) k = some v := by
  induction m with
  | nil => simp [mapSet, mapGet]
  | cons e t ih =>
    obtain ⟨k1, v1⟩ := e
    by_cases hk : k1 = k
    · simp [mapSet, hk, mapGet]
    · simp [mapSet, hk, mapGet, ih]

theorem mapGet_mapSet_other {α : Type} (m : List (String × α)) (k k2 : String) (v : α)
    (hne : k2 ≠ k) : mapGet (mapSet m k v) k2 = mapGet m k2 := by
  have hkk : ¬k = k2 := fun h => hne h.symm
  induction m with
  | nil =>
    simp only [mapSet, mapGet]
    rw [if_neg hkk]
  | cons e t ih =>
    obtain ⟨k1, v1⟩ := e
    by_cases hk : k1 = k
    · subst hk
      simp only [mapSet, if_pos rfl, mapGet]
      rw [if_neg hkk, if_neg hkk]
    · simp only [mapSet, if_neg hk, mapGet]
      by_cases h2 : k1 = k2 <;> simp [h2, ih]

/-- C6: the classifier is a short-circuiting ladder: a URL matching one of
the fixed address patterns is of interest whatever the payload; otherwise
the payload is parsed, `{"foo":1}` is rejected and `{"query":"{a}"}`
accepted, and an unparseable payload yields `false` (the result is then
exactly the URL-pattern verdict), never an error. -/
theorem c6_classifier_ladder :
    (∀ body : Json, ContentScript.isGraphQLRequest "https://x/graphql?id=1" body = true)
    ∧ ContentScript.isGraphQLRequest "https://x/other" (.str "\x7b\"foo\":1\x7d") = false
    ∧ ContentScript.isGraphQLRequest "https://x/other" (.str "\x7b\"query\":\"\x7ba\x7d\"\x7d") = true
    ∧ (∀ (url s : String), jsonParse s = none →
        ContentScript.isGraphQLRequest url (.str s) = ContentScript.urlPatternMatch url) := by
  refine ⟨?_, by rfl, by rfl, ?_⟩
  · intro body
    unfold ContentScript.isGraphQLRequest
    rw [show ContentScript.urlPatternMatch "https://x/graphql?id=1" = true from rfl]
    rfl
  · intro url s h
    unfold ContentScript.isGraphQLRequest
    by_cases hc : ContentScript.urlPatternMatch url
    · simp [hc]
    · simp only [Bool.not_eq_true] at hc
      rw [hc]
      simp only [Bool.false_eq_true, if_false, h]
      by_cases hs : s = "" <;> simp [hs]

theorem c6_witness :
    ContentScript.isGraphQLRequest "https://y/path" (.str "oops") =
      ContentScript.urlPatternMatch "https://y/path"
    ∧ ContentScript.isGraphQLRequest "https://x/graphql?id=1" .null = true :=
  ⟨c6_classifier_ladder.2.2.2 "https://y/path" "oops" (by rfl),
   c6_classifier_ladder.1 .null⟩

/-- C10: when the intercepted request body is not a string (an
already-parsed object, bytes, `null`, ...), the classifier's verdict is
exactly the URL-pattern verdict — the body is never consulted, so an
object body carrying a `query` field does not make a request of
interest. -/
theorem c10_nonstring_body :
    (∀ (url : String) (body : Json), body.isStr = false →
      ContentScript.isGraphQLRequest url body = ContentScript.urlPatternMatch url)
    ∧ ContentScript.isGraphQLRequest "https://x/other"
        (.obj [("query", .str "\x7ba\x7d")]) = false := by
  refine ⟨?_, by rfl⟩
  intro url body h
  unfold ContentScript.isGraphQLRequest
  by_cases hc : ContentScript.urlPatternMatch url
  · simp [hc]
  · simp only [Bool.not_eq_true] at hc
    rw [hc]
    cases body <;> simp_all [Json.isStr]

theorem c10_witness :
    ContentScript.isGraphQLRequest "https://x/other" (.obj [("query", .str "\x7ba\x7d")]) =
      ContentScript.urlPatternMatch "https://x/other" :=
  c10_nonstring_body.1 "https://x/other" (.obj [("query", .str "\x7ba\x7d")]) (by rfl)

/-- C7: `put` immediately followed by `get` on the same key returns the
record just stored, and a second `put` to the same key replaces the
record wholesale (the previous record is gone, no field merging). -/
theorem c7_put_get (m : ResponseMap) (k : String) (r r2 : CapturedResponse) :
    mapGet (mapSet m k r) k = some r
    ∧ mapGet (mapSet (mapSet m k r) k r2) k = some r2 :=
  ⟨mapGet_mapSet_same m k r, mapGet_mapSet_same (mapSet m k r) k r2⟩


theorem keys_mapSet_subset {α : Type} (m : List (String × α)) (k : String) (v : α) :
    ((mapSet m k v).map Prod.fst) ⊆ k :: m.map Prod.fst := by
  induction m with
  | nil => simp [mapSet]
  | cons e t ih =>
    obtain ⟨k1, v1⟩ := e
    simp only [mapSet]
    split_ifs with hk
    · subst hk
      intro a ha
      simp only [List.map_cons, List.mem_cons] at ha ⊢
      tauto
    · intro a ha
      simp only [List.map_cons, List.mem_cons] at ha ⊢
      rcases ha with ha | ha
      · tauto
      · have := ih ha
        simp only [List.mem_cons] at this
        tauto

theorem keys_nodup_mapSet {α : Type} (m : List (String × α)) (k : String) (v : α)
    (h : (m.map Prod.fst).Nodup) : ((mapSet m k v).map Prod.fst).Nodup := by
  induction m with
  | nil => simp [mapSet]
  | cons e t ih =>
    obtain ⟨k1, v1⟩ := e
    simp only [List.map_cons, List.nodup_cons] at h
    simp only [mapSet]
    split_ifs with hk
    · subst hk
      simp only [List.map_cons, List.nodup_cons]
      exact h
    · simp only [List.map_cons, List.nodup_cons]
      refine ⟨?_, ih h.2⟩
      intro hmem
      have h3 := keys_mapSet_subset t k v hmem
      simp only [List.mem_cons] at h3
      rcases h3 with h2 | h2
      · exact hk h2
      · exact h.1 h2

theorem mapGet_none_of_not_mem {α : Type} (m : List (String × α)) (k : String)
    (h : k ∉ m.map Prod.fst) : mapGet m k = none := by
  induction m with
  | nil => rfl
  | cons e t ih =>
    obtain ⟨k1, v1⟩ := e
    simp only [List.map_cons, List.mem_cons] at h
    push_neg at h
    simp only [mapGet]
    rw [if_neg (fun h2 : k1 = k => h.1 h2.symm)]
    exact ih h.2

theorem mapGet_filter_none {α : Type} (m : List (String × α)) (k : String)
    (p : String × α → Bool) (h : k ∉ m.map Prod.fst) : mapGet (m.filter p) k = none := by
  apply mapGet_none_of_not_mem
  intro hmem
  apply h
  simp only [List.mem_map] at hmem ⊢
  obtain ⟨e, he, hk⟩ := hmem
  exact ⟨e, (List.mem_filter.mp he).1, hk⟩

theorem mapGet_filter {α : Type} (m : List (String × α)) (k : String) (v : α)
    (p : String × α → Bool) (hnd : (m.map Prod.fst).Nodup) (h : mapGet m k = some v) :
    mapGet (m.filter p) k = if p (k, v) then some v else none := by
  induction m with
  | nil => simp [mapGet] at h
  | cons e t ih =>
    obtain ⟨k1, v1⟩ := e
    simp only [List.map_cons, List.nodup_cons] at hnd
    simp only [mapGet] at h
    by_cases hk : k1 = k
    · rw [if_pos hk] at h
      have hv : v1 = v := Option.some.inj h
      subst hv
      subst hk
      rw [List.filter_cons]
      by_cases hp : p (k1, v1) = true
      · simp [hp, mapGet]
      · simp only [hp, Bool.false_eq_true, if_false]
        exact mapGet_filter_none t k1 p hnd.1
    · rw [if_neg hk] at h
      rw [List.filter_cons]
      by_cases hp : p (k1, v1) = true
      · simp only [hp, if_true, mapGet]
        rw [if_neg hk]
        exact ih hnd.2 h
      · simp only [hp, Bool.false_eq_true, if_false]
        exact ih hnd.2 h

/-- C8: the periodic sweep removes exactly the entries older than
`maxAge` (5 minutes = 300 s) and retains every younger one; reads and
writes perform no expiry of their own (`get` is a pure lookup and `put`
leaves every other key untouched); a record stamped `T` is still
returned even by a sweep-then-get at `T + maxAge − 1s` and is gone right
after a sweep at `T + maxAge + 1s`. -/
theorem c8_sweep_ages_out (m : ResponseMap) (now : Nat) (k : String) (r : CapturedResponse)
    (hnd : (m.map Prod.fst).Nodup) :
    (∀ e ∈ ContentScript.sweepResponses now m,
        now - e.2.timestamp ≤ ContentScript.maxAgeMs)
    ∧ (∀ e ∈ m, now - e.2.timestamp ≤ ContentScript.maxAgeMs →
        e ∈ ContentScript.sweepResponses now m)
    ∧ (∀ k2, k2 ≠ k → mapGet (mapSet m k r) k2 = mapGet m k2)
    ∧ mapGet (ContentScript.sweepResponses (r.timestamp + ContentScript.maxAgeMs - 1000)
        (mapSet m k r)) k = some r
    ∧ mapGet (ContentScript.sweepResponses (r.timestamp + ContentScript.maxAgeMs + 1000)
        (mapSet m k r)) k = none := by
  refine ⟨?_, ?_, ?_, ?_, ?_⟩
  · intro e he
    have h2 := (List.mem_filter.mp he).2
    simp only [Bool.not_eq_true', decide_eq_false_iff_not, Nat.not_lt] at h2
    exact h2
  · intro e he hage
    refine List.mem_filter.mpr ⟨he, ?_⟩
    simp only [Bool.not_eq_true', decide_eq_false_iff_not, Nat.not_lt]
    exact hage
  · intro k2 hne
    exact mapGet_mapSet_other m k k2 r hne
  · rw [ContentScript.sweepResponses,
      mapGet_filter (mapSet m k r) k r _ (keys_nodup_mapSet m k r hnd)
        (mapGet_mapSet_same m k r)]
    have h3 : ¬ ContentScript.maxAgeMs <
        r.timestamp + ContentScript.maxAgeMs - 1000 - r.timestamp := by
      simp only [ContentScript.maxAgeMs]
      omega
    simp [h3]
  · rw [ContentScript.sweepResponses,
      mapGet_filter (mapSet m k r) k r _ (keys_nodup_mapSet m k r hnd)
        (mapGet_mapSet_same m k r)]
    have h3 : ContentScript.maxAgeMs <
        r.timestamp + ContentScript.maxAgeMs + 1000 - r.timestamp := by
      simp only [ContentScript.maxAgeMs]
      omega
    simp [h3]

theorem c8_witness :
    mapGet (ContentScript.sweepResponses (sampleRec.timestamp + ContentScript.maxAgeMs - 1000)
      (mapSet [] sampleRec.url sampleRec)) sampleRec.url = some sampleRec
    ∧ mapGet (ContentScript.sweepResponses (sampleRec.timestamp + ContentScript.maxAgeMs + 1000)
      (mapSet [] sampleRec.url sampleRec)) sampleRec.url = none :=
  ⟨(c8_sweep_ages_out [] 0 sampleRec.url sampleRec (by simp)).2.2.2.1,
   (c8_sweep_ages_out [] 0 sampleRec.url sampleRec (by simp)).2.2.2.2⟩

theorem isPrefixOf_takeWhile (p : List Char) : ∀ l : List Char, (∀ c ∈ p, c ≠ '?') →
    p.isPrefixOf (l.takeWhile (fun c => c ≠ '?')) = p.isPrefixOf l := by
  induction p with
  | nil =>
    intro l hp
    simp [List.isPrefixOf]
  | cons a as ih =>
    intro l hp
    have ha : a ≠ '?' := hp a (List.mem_cons_self a as)
    cases l with
    | nil => simp
    | cons b bs =>
      rw [List.takeWhile_cons]
      by_cases hb : b = '?'
      · have hd : (decide (b ≠ '?')) = false := by simp [hb]
        rw [hd]
        have hab : (a == b) = false := by
          subst hb
          simp [ha]
        simp [List.isPrefixOf, hab]
      · have hd : (decide (b ≠ '?')) = true := by simp [hb]
        rw [hd]
        simp only [if_true]
        simp only [List.isPrefixOf]
        rw [ih bs (fun c hc => hp c (List.mem_cons_of_mem a hc))]

theorem strStartsWith_stripQuery (s url : String) :
    ContentScript.strStartsWith (ContentScript.stripQuery s) (ContentScript.stripQuery url) =
    ContentScript.strStartsWith s (ContentScript.stripQuery url) := by
  show (ContentScript.stripQuery url).toList.isPrefixOf
      ((String.mk (s.toList.takeWhile (fun c => c ≠ '?'))).toList) =
    (ContentScript.stripQuery url).toList.isPrefixOf s.toList
  have h2 : ∀ c ∈ (ContentScript.stripQuery url).toList, c ≠ '?' := by
    intro c hc
    have h3 : c ∈ url.toList.takeWhile (fun c => c ≠ '?') := hc
    have h4 := List.mem_takeWhile_imp h3
    simpa using h4
  exact isPrefixOf_takeWhile _ s.toList h2

theorem urlPrefixLookup_none (url : String) : ∀ m : ResponseMap,
    (∀ e ∈ m, ContentScript.strStartsWith e.1 (ContentScript.stripQuery url) = false) →
    ContentScript.urlPrefixLookup m url = none := by
  intro m
  induction m with
  | nil => intro h; rfl
  | cons f t ih =>
    intro h
    unfold ContentScript.urlPrefixLookup
    rw [List.find?_cons_of_neg]
    · exact ih (fun e he => h e (List.mem_cons_of_mem f he))
    · simp [h f (List.mem_cons_self f t)]

theorem urlPrefixLookup_first (url : String) (e : String × CapturedResponse)
    (m2 : ResponseMap) : ∀ m1 : ResponseMap,
    ContentScript.strStartsWith e.1 (ContentScript.stripQuery url) = true →
    (∀ e2 ∈ m1, ContentScript.strStartsWith e2.1 (ContentScript.stripQuery url) = false) →
    ContentScript.urlPrefixLookup (m1 ++ e :: m2) url = some e.2 := by
  intro m1
  induction m1 with
  | nil =>
    intro htrue _
    unfold ContentScript.urlPrefixLookup
    rw [List.nil_append, List.find?_cons_of_pos]
    exact htrue
  | cons f t ih =>
    intro htrue hprev
    unfold ContentScript.urlPrefixLookup
    rw [List.cons_append, List.find?_cons_of_neg]
    · exact ih htrue (fun e2 he2 => hprev e2 (List.mem_cons_of_mem f he2))
    · simp [hprev f (List.mem_cons_self f t)]

/-- C9: the prefix fallback returns `none` when no stored key's address,
with its query string ignored, starts with the request's pre-query
prefix, and returns the first matching entry in iteration (= insertion)
order when one exists. -/
theorem c9_prefix_fallback (m : ResponseMap) (url : String) :
    ((∀ e ∈ m, ContentScript.strStartsWith (ContentScript.stripQuery e.1)
        (ContentScript.stripQuery url) = false) →
      ContentScript.urlPrefixLookup m url = none)
    ∧ (∀ (m1 : ResponseMap) (e : String × CapturedResponse) (m2 : ResponseMap),
        m = m1 ++ e :: m2 →
        ContentScript.strStartsWith (ContentScript.stripQuery e.1)
          (ContentScript.stripQuery url) = true →
        (∀ e2 ∈ m1, ContentScript.strStartsWith (ContentScript.stripQuery e2.1)
          (ContentScript.stripQuery url) = false) →
        ContentScript.urlPrefixLookup m url = some e.2) := by
  constructor
  · intro h
    apply urlPrefixLookup_none
    intro e he
    rw [← strStartsWith_stripQuery]
    exact h e he
  · intro m1 e m2 hm htrue hprev
    subst hm
    apply urlPrefixLookup_first
    · rw [← strStartsWith_stripQuery]
      exact htrue
    · intro e2 he2
      rw [← strStartsWith_stripQuery]
      exact hprev e2 he2

theorem c9_witness :
    ContentScript.urlPrefixLookup
      [("https://a/other", sampleRec2), ("https://a/api?x=1", sampleRec)]
      "https://a/api?y=2" = some sampleRec
    ∧ ContentScript.urlPrefixLookup [("https://a/other", sampleRec2)]
      "https://a/api?y=2" = none :=
  ⟨(c9_prefix_fallback _ "https://a/api?y=2").2
      [("https://a/other", sampleRec2)] ("https://a/api?x=1", sampleRec) [] rfl (by rfl)
      (by
        intro e2 he2
        simp only [List.mem_singleton] at he2
        subst he2
        rfl),
   (c9_prefix_fallback _ "https://a/api?y=2").1
      (by
        intro e he
        simp only [List.mem_singleton] at he
        subst he
        rfl)⟩

/-- C1 (amended): for the background-script extractor, whenever the
ordered shape search accepts no raw-cluster candidate the result is
`none`, and every internally thrown fault is caught and also yields
`none` — nothing is fabricated and no fault escapes.  (The content-script
variant of the extractor violates the original claim: see the
counterexample.) -/
theorem c1_bg_none_when_no_shape :
    (∀ response : Json, Background.shapeFound response = false →
      Background.transformToClusterData response = none)
    ∧ (∀ response : Json, Background.transformAux response = .error () →
      Background.transformToClusterData response = none) := by
  constructor
  · intro r h
    unfold Background.shapeFound at h
    unfold Background.transformToClusterData Background.transformAux
    cases hacc : Background.acceptedCluster r with
    | error e =>
      cases e
      simp [hacc, exceptBind_error]
    | ok v =>
      cases v with
      | none => simp [hacc, exceptBind_ok, exceptPure]
      | some t =>
        rw [hacc] at h
        simp at h
  · intro r h
    unfold Background.transformToClusterData
    rw [h]

/-- C1 counterexample: on `Json.obj []` — a payload in which the shape
search finds nothing — the content-script `transformToClusterData`
returns the fabricated placeholder graph (three invented nodes), not
none. -/
theorem c1_counterexample :
    Background.shapeFound (.obj []) = false
    ∧ ContentScript.transformToClusterData [] (.obj []) =
        ContentScript.mockGraph (.str "0")
    ∧ (ContentScript.mockGraph (.str "0")).nodes ≠ [] := by
  refine ⟨by rfl, by rfl, ?_⟩
  intro h
  simp [ContentScript.mockGraph] at h

theorem c1_witness :
    Background.transformToClusterData (.obj []) = none
    ∧ Background.transformToClusterData .null = none :=
  ⟨c1_bg_none_when_no_shape.1 (.obj []) (by rfl),
   c1_bg_none_when_no_shape.2 .null (by rfl)⟩

/-- C2 (amended): the background-script extractor rejects a raw-cluster
candidate whose `edges` or `members` is missing (falsy) — the candidate
is not accepted and the overall result is `none`, never a graph with
invented parts.  (The content-script variant instead fabricates a mock
graph: see the counterexample.) -/
theorem c2_bg_rejects_missing_lists :
    (∀ (c e m : Json), c.getF "edges" = .ok e → c.getF "members" = .ok m →
      (e.truthy = false ∨ m.truthy = false) →
      Background.acceptCandidate c = .ok none)
    ∧ (∀ (j c : Json), Background.findCandidate j = .ok (some c) →
      Background.acceptCandidate c = .ok none →
      Background.transformToClusterData j = none) := by
  constructor
  · intro c e m h1 h2 h3
    unfold Background.acceptCandidate
    rw [h1, exceptBind_ok]
    rcases h3 with h3 | h3
    · simp [h3, exceptPure]
    · by_cases he : e.truthy
      · simp [he, h2, exceptBind_ok, h3, exceptPure]
      · simp [he, exceptPure]
  · intro j c hfind hacc
    unfold Background.transformToClusterData Background.transformAux
      Background.acceptedCluster
    rw [hfind]
    simp [exceptBind_ok, hacc, exceptPure]

/-- C2 counterexample: `responseMissingMembers` reaches a candidate with
neither list; the content-script extractor returns a graph with three
invented nodes and two invented edges instead of none. -/
theorem c2_counterexample :
    Background.findCandidate responseMissingMembers = .ok (some bareCluster)
    ∧ Json.getF bareCluster "edges" = .ok .undef
    ∧ Json.getF bareCluster "members" = .ok .undef
    ∧ ContentScript.transformToClusterData [] responseMissingMembers =
        ContentScript.mockGraph (.str "X")
    ∧ (ContentScript.mockGraph (.str "X")).edges ≠ [] := by
  refine ⟨by rfl, by rfl, by rfl, by rfl, ?_⟩
  intro h
  simp [ContentScript.mockGraph] at h

theorem c2_witness :
    Background.acceptCandidate bareCluster = .ok none
    ∧ Background.transformToClusterData responseMissingMembers = none := by
  have h1 := c2_bg_rejects_missing_lists.1 bareCluster .undef .undef
    (by rfl) (by rfl) (Or.inl (by rfl))
  exact ⟨h1, c2_bg_rejects_missing_lists.2 responseMissingMembers bareCluster (by rfl) h1⟩

/-- C3 (amended): the edge-endpoint invariant is enforced by the
visualizer's `validLinks` filter, not by extraction: every retained link
has both endpoints among the node ids, the retained links are a sublist
of the prepared links (nothing is synthesized), and every prepared link
with both endpoints present is retained.  (Extraction itself can output
a graph violating the invariant: see the counterexample.) -/
theorem c3_validLinks_invariant (d : ClusterData) :
    (∀ l ∈ ContentScript.validLinks d,
      ContentScript.idSetHas (ContentScript.nodeIdSet d) l.source = true ∧
      ContentScript.idSetHas (ContentScript.nodeIdSet d) l.target = true)
    ∧ (ContentScript.validLinks d).Sublist (ContentScript.vizLinks d)
    ∧ (∀ l ∈ ContentScript.vizLinks d,
      ContentScript.idSetHas (ContentScript.nodeIdSet d) l.source = true →
      ContentScript.idSetHas (ContentScript.nodeIdSet d) l.target = true →
      l ∈ ContentScript.validLinks d) := by
  refine ⟨?_, ?_, ?_⟩
  · intro l hl
    have h2 := (List.mem_filter.mp hl).2
    simp only [Bool.and_eq_true] at h2
    exact h2
  · exact List.filter_sublist _
  · intro l hl h1 h2
    refine List.mem_filter.mpr ⟨hl, ?_⟩
    simp [h1, h2]

/-- C3 counterexample: the background extractor produces `graphDangling`
whose edge's `higher_person_id` (`"2"`) is not among the node ids — the
invariant does not hold of produced graphs; it only holds after the
visualizer's filtering. -/
theorem c3_counterexample :
    Background.transformToClusterData responseDangling = some graphDangling
    ∧ (∃ e ∈ graphDangling.edges,
        ContentScript.idSetHas (ContentScript.nodeIdSet graphDangling)
          e.higher_person_id = false) := by
  refine ⟨by rfl, ⟨⟨.str "1", .str "2", .str "PENDING", .null, .null⟩, ?_, by rfl⟩⟩
  simp [graphDangling]

theorem c3_witness :
    ContentScript.idSetHas (ContentScript.nodeIdSet graphA) (Json.str "1") = true
    ∧ ContentScript.idSetHas (ContentScript.nodeIdSet graphA) (Json.str "2") = true :=
  (c3_validLinks_invariant graphA).1
    ⟨.str "1", .str "2", .str "PENDING", .null, .null⟩
    (by
      rw [show ContentScript.validLinks graphA =
        [⟨.str "1", .str "2", .str "PENDING", .null, .null⟩] from rfl]
      exact List.mem_singleton.mpr rfl)

theorem findClusterReq_found (cid : Json) : ∀ (reqs : List Json) (req : Json),
    Background.findClusterReq reqs cid = .ok (some req) →
    ∃ resp, req.getF "response" = .ok resp ∧
      ∃ d, Background.transformToClusterData resp = some d ∧
        d.id.jsStrictEq cid = true := by
  intro reqs
  induction reqs with
  | nil =>
    intro req h
    simp [Background.findClusterReq, exceptPure] at h
  | cons r t ih =>
    intro req h
    unfold Background.findClusterReq at h
    cases hresp : r.getF "response" with
    | error e =>
      cases e
      simp only [hresp, exceptBind_error] at h
      simp at h
    | ok resp =>
      simp only [hresp, exceptBind_ok] at h
      by_cases hic : Background.isClusterData resp = true
      · rw [if_pos hic] at h
        cases htr : Background.transformToClusterData resp with
        | none =>
          simp only [htr] at h
          exact ih req h
        | some d =>
          simp only [htr] at h
          by_cases heq : d.id.jsStrictEq cid = true
          · rw [if_pos heq, exceptPure] at h
            have h3 : r = req := Option.some.inj (Except.ok.inj h)
            subst h3
            exact ⟨resp, hresp, d, htr, heq⟩
          · rw [if_neg heq] at h
            exact ih req h
      · rw [if_neg hic] at h
        exact ih req h

/-- C4 (amended): the background `getClusterById` handler can only ever
answer with a graph whose id strictly equals the requested id — any
candidate whose id differs is rejected, and when no candidate matches
the answer is none.  (The content-script `fetchAndVisualizeCluster`
violates the original claim through its relabeling fallback: see the
counterexample.) -/
theorem c4_background_id_filter (requests : List Json) (clusterId : Json) (d : ClusterData)
    (h : Background.getClusterById requests clusterId = .ok (some d)) :
    d.id.jsStrictEq clusterId = true := by
  unfold Background.getClusterById at h
  cases hf : Background.findClusterReq requests clusterId with
  | error e =>
    cases e
    simp only [hf, exceptBind_error] at h
    simp at h
  | ok v =>
    cases v with
    | none =>
      simp only [hf, exceptBind_ok, exceptPure] at h
      simp at h
    | some req =>
      simp only [hf, exceptBind_ok] at h
      obtain ⟨resp, hresp, d2, htr, heq⟩ := findClusterReq_found clusterId requests req hf
      simp only [hresp, exceptBind_ok, htr, exceptPure] at h
      have h3 : d2 = d := Option.some.inj (Except.ok.inj h)
      subst h3
      exact heq

/-- C4 counterexample: a structurally valid candidate with id `"A"` is
stored; the requested id is `"B"`; instead of producing nothing, the
content-script fallback rewrites the request id, extracts the stale
cluster-`"A"` graph and relabels it `"B"`. -/
theorem c4_counterexample :
    Background.transformToClusterData responseA = some graphA
    ∧ Json.jsStrictEq graphA.id (.str "B") = false
    ∧ ContentScript.fetchAndVisualizeCluster [messageA] "B" =
        .ok (some { graphA with id := .str "B" }) :=
  ⟨by rfl, by rfl, by rfl⟩

theorem c4_witness : Json.jsStrictEq graphA.id (.str "A") = true :=
  c4_background_id_filter [requestRecA] (.str "A") graphA (by rfl)

theorem mapE_spec {α : Type} (f : Json → Except Unit α) : ∀ (l : List Json) (l2 : List α),
    mapE f l = .ok l2 →
    l2.length = l.length ∧
    ∀ i (h1 : i < l.length) (h2 : i < l2.length),
      f (l.get ⟨i, h1⟩) = .ok (l2.get ⟨i, h2⟩) := by
  intro l
  induction l with
  | nil =>
    intro l2 h
    simp only [mapE] at h
    have h2 : ([] : List α) = l2 := Except.ok.inj h
    subst h2
    exact ⟨rfl, fun i h1 _ => absurd h1 (by simp)⟩
  | cons x xs ih =>
    intro l2 h
    unfold mapE at h
    cases hf : f x with
    | error e =>
      cases e
      simp only [hf, exceptBind_error] at h
      simp at h
    | ok y =>
      simp only [hf, exceptBind_ok] at h
      cases hm : mapE f xs with
      | error e =>
        cases e
        simp only [hm, exceptBind_error] at h
        simp at h
      | ok ys =>
        simp only [hm, exceptBind_ok, exceptPure] at h
        have h2 : (y :: ys) = l2 := Except.ok.inj h
        subst h2
        obtain ⟨hlen, hget⟩ := ih ys hm
        refine ⟨by simp [hlen], ?_⟩
        intro i h1 h2
        cases i with
        | zero => simpa using hf
        | succ n =>
          exact hget n (by simpa using h1) (by simpa using h2)

theorem getF_ok_of_truthy (v : Json) (k : String) (h : v.truthy = true) :
    ∃ w, v.getF k = .ok w := by
  cases v with
  | null => simp [Json.truthy] at h
  | undef => simp [Json.truthy] at h
  | bool b => exact ⟨.undef, rfl⟩
  | num i f => exact ⟨.undef, rfl⟩
  | str s => exact ⟨_, rfl⟩
  | arr xs => exact ⟨_, rfl⟩
  | obj fs => exact ⟨_, rfl⟩

theorem canonMember_spec (member : Json) (n : CNode) (h : canonMember member = .ok n) :
    ∃ node, member.getF "node" = .ok node ∧
      node.getF "id" = .ok n.person_id ∧
      ∃ nm, node.getF "name" = .ok nm ∧
        n.name = (if nm.truthy then nm else .str "No name") := by
  unfold canonMember at h
  cases hnode : member.getF "node" with
  | error e =>
    cases e
    simp only [hnode, exceptBind_error] at h
    simp at h
  | ok node =>
    simp only [hnode, exceptBind_ok] at h
    cases hid : node.getF "id" with
    | error e =>
      cases e
      simp only [hid, exceptBind_error] at h
      simp at h
    | ok pid =>
      simp only [hid, exceptBind_ok] at h
      cases hnm : node.getF "name" with
      | error e =>
        cases e
        simp only [hnm, exceptBind_error] at h
        simp at h
      | ok nm =>
        simp only [hnm, exceptBind_ok, exceptPure] at h
        have h2 : (⟨pid, if nm.truthy then nm else .str "No name"⟩ : CNode) = n :=
          Except.ok.inj h
        subst h2
        exact ⟨node, rfl, hid, nm, hnm, rfl⟩

theorem canonEdge_spec (edge : Json) (e : CEdge) (h : canonEdge edge = .ok e) :
    ∃ na nb subs vec,
      edge.getF "nodeA" = .ok na ∧ na.getF "id" = .ok e.lower_person_id ∧
      edge.getF "nodeB" = .ok nb ∧ nb.getF "id" = .ok e.higher_person_id ∧
      edge.getF "status" = .ok e.status ∧
      edge.getF "subStatuses" = .ok subs ∧ subStatusOf subs = .ok e.sub_status_type ∧
      edge.getF "vector" = .ok vec ∧ notesOf vec = .ok e.notes := by
  unfold canonEdge at h
  cases hna : edge.getF "nodeA" with
  | error er => cases er; simp only [hna, exceptBind_error] at h; simp at h
  | ok na =>
  simp only [hna, exceptBind_ok] at h
  cases hlo : na.getF "id" with
  | error er => cases er; simp only [hlo, exceptBind_error] at h; simp at h
  | ok lo =>
  simp only [hlo, exceptBind_ok] at h
  cases hnb : edge.getF "nodeB" with
  | error er => cases er; simp only [hnb, exceptBind_error] at h; simp at h
  | ok nb =>
  simp only [hnb, exceptBind_ok] at h
  cases hhi : nb.getF "id" with
  | error er => cases er; simp only [hhi, exceptBind_error] at h; simp at h
  | ok hi =>
  simp only [hhi, exceptBind_ok] at h
  cases hst : edge.getF "status" with
  | error er => cases er; simp only [hst, exceptBind_error] at h; simp at h
  | ok status =>
  simp only [hst, exceptBind_ok] at h
  cases hsubs : edge.getF "subStatuses" with
  | error er => cases er; simp only [hsubs, exceptBind_error] at h; simp at h
  | ok subs =>
  simp only [hsubs, exceptBind_ok] at h
  cases hss : subStatusOf subs with
  | error er => cases er; simp only [hss, exceptBind_error] at h; simp at h
  | ok sub =>
  simp only [hss, exceptBind_ok] at h
  cases hvec : edge.getF "vector" with
  | error er => cases er; simp only [hvec, exceptBind_error] at h; simp at h
  | ok vec =>
  simp only [hvec, exceptBind_ok] at h
  cases hno : notesOf vec with
  | error er => cases er; simp only [hno, exceptBind_error] at h; simp at h
  | ok note =>
  simp only [hno, exceptBind_ok, exceptPure] at h
  have h2 : (⟨lo, hi, status, sub, note⟩ : CEdge) = e := Except.ok.inj h
  subst h2
  exact ⟨na, nb, subs, vec, rfl, hlo, rfl, hhi, rfl, rfl, hss, rfl, hno⟩

theorem subStatusOf_arr (l : List Json) :
    subStatusOf (.arr l) = .ok (match l with | [] => Json.null | x :: _ => x) := by
  cases l with
  | nil => rfl
  | cons x t =>
    show subStatusOf (.arr (x :: t)) = .ok x
    unfold subStatusOf
    rw [if_pos (by rfl)]
    have hlen : (Json.arr (x :: t)).getF "length" =
        .ok (.num ((x :: t).length : Int) "") := by
      simp [Json.getF]
    simp only [hlen, exceptBind_ok]
    have hgt : (Json.num (((x :: t).length : Nat) : Int) "").gtZero = true := by
      have hp : (0 : Int) < ((x :: t).length : Int) := by
        exact_mod_cast Nat.succ_pos t.length
      simp [Json.gtZero, hp]
    rw [if_pos hgt]
    rfl

theorem subStatusOf_falsy (subs : Json) (h : subs.truthy = false) :
    subStatusOf subs = .ok .null := by
  unfold subStatusOf
  rw [if_neg (by simp [h])]
  rfl

theorem notesOf_falsy (vec : Json) (h : vec.truthy = false) :
    notesOf vec = .ok .null := by
  unfold notesOf
  rw [if_neg (by simp [h])]
  rfl

theorem notesOf_truthy (vec : Json) (h : vec.truthy = true) :
    ∃ ns es2 ps, vec.getF "nameScore" = .ok ns ∧ vec.getF "emailScore" = .ok es2 ∧
      vec.getF "phoneScore" = .ok ps ∧
      notesOf vec = .ok (.str ("Scores: Name=" ++ jsToString ns ++ ", Email=" ++
        jsToString es2 ++ ", Phone=" ++ jsToString ps)) := by
  obtain ⟨ns, hns⟩ := getF_ok_of_truthy vec "nameScore" h
  obtain ⟨es2, hes⟩ := getF_ok_of_truthy vec "emailScore" h
  obtain ⟨ps, hps⟩ := getF_ok_of_truthy vec "phoneScore" h
  refine ⟨ns, es2, ps, hns, hes, hps, ?_⟩
  unfold notesOf
  rw [if_pos h]
  simp only [hns, hes, hps, exceptBind_ok, exceptPure]

theorem transform_some_spec (j : Json) (g : ClusterData)
    (h : Background.transformToClusterData j = some g) :
    ∃ cluster ce cm, Background.acceptedCluster j = .ok (some (cluster, ce, cm)) ∧
      Background.canon cluster ce cm = .ok g := by
  unfold Background.transformToClusterData Background.transformAux at h
  cases hacc : Background.acceptedCluster j with
  | error e =>
    cases e
    simp only [hacc, exceptBind_error] at h
    simp at h
  | ok v =>
    cases v with
    | none =>
      simp only [hacc, exceptBind_ok, exceptPure] at h
      simp at h
    | some t =>
      obtain ⟨cluster, ce, cm⟩ := t
      simp only [hacc, exceptBind_ok] at h
      cases hc : Background.canon cluster ce cm with
      | error e =>
        cases e
        simp only [hc, exceptBind_error] at h
        simp at h
      | ok g2 =>
        simp only [hc, exceptBind_ok, exceptPure] at h
        have h2 : g2 = g := Option.some.inj h
        subst h2
        exact ⟨cluster, ce, cm, rfl, hc⟩

theorem canon_spec (cluster ce cm : Json) (g : ClusterData)
    (h : Background.canon cluster ce cm = .ok g) :
    ∃ (ms es : List Json), cm = .arr ms ∧ ce = .arr es ∧
      cluster.getF "id" = .ok g.id ∧
      mapE canonMember ms = .ok g.nodes ∧ mapE canonEdge es = .ok g.edges := by
  unfold Background.canon at h
  cases cm <;> cases ce <;> try exact Except.noConfusion h
  rename_i ms es
  cases hn : mapE canonMember ms with
  | error e =>
    cases e
    simp only [hn, exceptBind_error] at h
    simp at h
  | ok nodes =>
    simp only [hn, exceptBind_ok] at h
    cases hedg : mapE canonEdge es with
    | error e =>
      cases e
      simp only [hedg, exceptBind_error] at h
      simp at h
    | ok edges =>
      simp only [hedg, exceptBind_ok] at h
      cases hid : cluster.getF "id" with
      | error e =>
        cases e
        simp only [hid, exceptBind_error] at h
        simp at h
      | ok cid =>
        simp only [hid, exceptBind_ok, exceptPure] at h
        have h2 : (⟨cid, nodes, edges⟩ : ClusterData) = g := Except.ok.inj h
        subst h2
        exact ⟨ms, es, rfl, rfl, rfl, hn, hedg⟩

/-- C5 (amended): canonicalization of an accepted candidate maps each
member to `Node{person_id = member.node.id, name = member.node.name when
truthy, else "No name" (also when the name is present but falsy, e.g. the
empty string)}` and each raw edge to the canonical edge with
`lowerId = nodeA.id`, `higherId = nodeB.id`, `status = status`,
`subStatus = first of subStatuses when that list is non-empty else none`,
`notes = the "Scores: Name=_, Email=_, Phone=_" string when a score
vector is present else none`; members and edges are mapped pointwise in
source order (index `i` of the output comes from index `i` of the
input), with no re-sorting. -/
theorem c5_canonical_maps :
    (∀ (member : Json) (n : CNode), canonMember member = .ok n →
      ∃ node, member.getF "node" = .ok node ∧
        node.getF "id" = .ok n.person_id ∧
        ∃ nm, node.getF "name" = .ok nm ∧
          n.name = (if nm.truthy then nm else .str "No name"))
    ∧ (∀ (edge : Json) (e : CEdge), canonEdge edge = .ok e →
      (∃ na, edge.getF "nodeA" = .ok na ∧ na.getF "id" = .ok e.lower_person_id)
      ∧ (∃ nb, edge.getF "nodeB" = .ok nb ∧ nb.getF "id" = .ok e.higher_person_id)
      ∧ edge.getF "status" = .ok e.status
      ∧ (∀ l : List Json, edge.getF "subStatuses" = .ok (.arr l) →
          e.sub_status_type = (match l with | [] => Json.null | x :: _ => x))
      ∧ (∀ subs, edge.getF "subStatuses" = .ok subs → subs.truthy = false →
          e.sub_status_type = .null)
      ∧ (∀ vec, edge.getF "vector" = .ok vec → vec.truthy = false → e.notes = .null)
      ∧ (∀ vec, edge.getF "vector" = .ok vec → vec.truthy = true →
          ∃ ns es2 ps, vec.getF "nameScore" = .ok ns ∧ vec.getF "emailScore" = .ok es2 ∧
            vec.getF "phoneScore" = .ok ps ∧
            e.notes = .str ("Scores: Name=" ++ jsToString ns ++ ", Email=" ++
              jsToString es2 ++ ", Phone=" ++ jsToString ps)))
    ∧ (∀ (j : Json) (g : ClusterData), Background.transformToClusterData j = some g →
      ∃ (cluster ce cm : Json) (ms es : List Json),
        Background.acceptedCluster j = .ok (some (cluster, ce, cm)) ∧
        cm = .arr ms ∧ ce = .arr es ∧ cluster.getF "id" = .ok g.id ∧
        g.nodes.length = ms.length ∧ g.edges.length = es.length ∧
        (∀ i (h1 : i < ms.length) (h2 : i < g.nodes.length),
          canonMember (ms.get ⟨i, h1⟩) = .ok (g.nodes.get ⟨i, h2⟩)) ∧
        (∀ i (h1 : i < es.length) (h2 : i < g.edges.length),
          canonEdge (es.get ⟨i, h1⟩) = .ok (g.edges.get ⟨i, h2⟩))) := by
  refine ⟨canonMember_spec, ?_, ?_⟩
  · intro edge e h
    obtain ⟨na, nb, subs, vec, hna, hlo, hnb, hhi, hst, hsubs, hss, hvec, hno⟩ :=
      canonEdge_spec edge e h
    refine ⟨⟨na, hna, hlo⟩, ⟨nb, hnb, hhi⟩, hst, ?_, ?_, ?_, ?_⟩
    · intro l hl
      rw [hsubs] at hl
      have h2 : subs = .arr l := Except.ok.inj hl
      subst h2
      rw [subStatusOf_arr l] at hss
      exact (Except.ok.inj hss).symm
    · intro subs2 hs2 hf
      rw [hsubs] at hs2
      have h2 : subs = subs2 := Except.ok.inj hs2
      subst h2
      rw [subStatusOf_falsy subs hf] at hss
      exact (Except.ok.inj hss).symm
    · intro vec2 hv2 hf
      rw [hvec] at hv2
      have h2 : vec = vec2 := Except.ok.inj hv2
      subst h2
      rw [notesOf_falsy vec hf] at hno
      exact (Except.ok.inj hno).symm
    · intro vec2 hv2 ht
      rw [hvec] at hv2
      have h2 : vec = vec2 := Except.ok.inj hv2
      subst h2
      obtain ⟨ns, es2, ps, hns, hes, hps, hstr⟩ := notesOf_truthy vec ht
      rw [hstr] at hno
      exact ⟨ns, es2, ps, hns, hes, hps, (Except.ok.inj hno).symm⟩
  · intro j g h
    obtain ⟨cluster, ce, cm, hacc, hc⟩ := transform_some_spec j g h
    obtain ⟨ms, es, hcm, hce, hid, hn, he⟩ := canon_spec cluster ce cm g hc
    obtain ⟨hlen1, hget1⟩ := mapE_spec canonMember ms g.nodes hn
    obtain ⟨hlen2, hget2⟩ := mapE_spec canonEdge es g.edges he
    exact ⟨cluster, ce, cm, ms, es, hacc, hcm, hce, hid, hlen1, hlen2, hget1, hget2⟩

/-- C5 counterexample: a member whose `node.name` is present but equal to
the empty string is canonicalized to `"No name"`, not to its (empty)
name — the fallback applies to every falsy name, not only to absent
ones. -/
theorem c5_counterexample :
    Background.transformToClusterData responseEmptyName =
      some ⟨.str "e", [⟨.str "1", .str "No name"⟩], []⟩
    ∧ Json.getF (.obj [("id", .str "1"), ("name", .str "")]) "name" = .ok (.str "")
    ∧ Json.str "No name" ≠ Json.str "" := by
  refine ⟨by rfl, by rfl, ?_⟩
  intro h
  injection h with h2
  exact absurd h2 (by decide)

theorem c5_witness :
    ∃ node, (Json.obj [("node", Json.obj [("id", Json.str "9"),
        ("name", Json.str "N")])]).getF "node" = .ok node ∧
      node.getF "id" = .ok (Json.str "9") ∧
      ∃ nm, node.getF "name" = .ok nm ∧
        (Json.str "N") = (if nm.truthy then nm else Json.str "No name") :=
  c5_canonical_maps.1
    (Json.obj [("node", Json.obj [("id", Json.str "9"), ("name", Json.str "N")])])
    ⟨Json.str "9", Json.str "N"⟩ (by rfl)
